import Mathlib

/-!
Shallow embedding of the publication-tracking core of `src/main.py` (a
scraper/notifier bot): structured extraction of table rows into records and
the id-keyed cache (`scrape_page`), the active-status filter
(`filter_vigente`), the remaining-time display of
`format_single_publication`, the Google-Drive URL rewrite
(`convert_drive_url`), the snapshot diff and subscriber fan-out of
`check_for_new_publications`, and the subscribe/unsubscribe operations.

Python strings are modelled as Lean `String`; the Python string operations
used by the source (`in`, `startswith`, `split`, `strip`) are re-implemented
below by structural recursion over character lists so that every definition
evaluates inside the kernel.  Machine-level details that the source never
relies on (unicode-width whitespace classes, percent-decoding in query
strings) are noted at each definition.
-/

namespace Bot

/-- The fixed source URL (src/main.py line 46). -/
def url : String := "https://sistemas.undc.edu.pe/bienesyservicios/"

/-- Does the character list start with the given prefix of characters? -/
def listStartsWith : List Char → List Char → Bool
  | [], _ => true
  | _ :: _, [] => false
  | a :: ps, b :: l => a == b && listStartsWith ps l

/-- Python substring test `needle in hay`, over character lists. -/
def listHasSeg (needle : List Char) : List Char → Bool
  | [] => needle.isEmpty
  | c :: rest => listStartsWith needle (c :: rest) || listHasSeg needle rest

/-- Python `s.startswith(pre)`. -/
def strStartsWith (s pre : String) : Bool :=
  listStartsWith pre.data s.data

/-- Python `needle in hay` (case-sensitive substring containment). -/
def strContains (hay needle : String) : Bool :=
  listHasSeg needle.data hay.data

/-- Worker for `pySplit`: scans the character list left to right, splitting
at each (non-overlapping) occurrence of the separator.  The fuel argument is
initialised to the length of the scanned list, which bounds the number of
steps, so the fallback fuel-exhausted case is never reached. -/
def splitOnGo (sep : List Char) : Nat → List Char → List Char → List (List Char)
  | _, [], acc => [acc.reverse]
  | 0, l, acc => [acc.reverse ++ l]
  | fuel + 1, c :: rest, acc =>
    if listStartsWith sep (c :: rest) then
      acc.reverse :: splitOnGo sep fuel (List.drop (sep.length - 1) rest) []
    else
      splitOnGo sep fuel rest (c :: acc)

/-- Python `s.split(sep)` for a non-empty separator (Python raises on an
empty separator; we return the singleton in that unused case). -/
def pySplit (s sep : String) : List String :=
  match sep.data with
  | [] => [s]
  | c :: cs => (splitOnGo (c :: cs) s.data.length s.data []).map String.mk

/-- ASCII whitespace, the class stripped by Python `str.strip` (the source's
cell texts never carry the additional unicode space characters Python would
also strip). -/
def isPySpace (c : Char) : Bool :=
  c == ' ' || c == '\t' || c == '\n' || c == '\r' || c == '\x0b' || c == '\x0c'

/-- Python `s.strip()`. -/
def pyStrip (s : String) : String :=
  String.mk (((s.data.dropWhile isPySpace).reverse.dropWhile isPySpace).reverse)

/-- One `<td>` cell of a table row: its text content, and the `href` of the
first anchor carrying one (what `cols[2].find('a', href=True)` would
return), if any. -/
structure Cell where
  text : String
  href : Option String
deriving DecidableEq

/-- A raw `<tr>` row: its list of `<td>` cells. -/
abbrev RawRow := List Cell

/-- One value of the global `data_cache` dict (src/main.py lines 103-110). -/
structure CacheEntry where
  row : List String
  pdf_url : String
  description : String
  published_date : String
  expires_date : String
  status : String
deriving DecidableEq

/-- Models `urllib.parse.urljoin` for the references this source page
produces: an absolute-path reference is resolved against the scheme and host
of the fixed base `url` (which ends in a slash), any other relative
reference is appended to it. -/
def urljoin (base rel : String) : String :=
  if strStartsWith rel "/" then "https://sistemas.undc.edu.pe" ++ rel else base ++ rel

/-- The PDF link of a row (src/main.py lines 89-95): the `href` of the first
anchor of column 2, made absolute, or the sentinel `"No disponible"`. -/
def pdf_link_of (r : RawRow) : String :=
  match (r.getD 2 ⟨"", none⟩).href with
  | some h => if strStartsWith h "http" then h else urljoin url h
  | none => "No disponible"

/-- The record built from one well-formed row:
`cols_text = [ele.text.strip() for ele in cols]` with the PDF link appended
(src/main.py lines 86-99). -/
def mkRowRecord (r : RawRow) : List String :=
  (r.map (fun c => pyStrip c.text)) ++ [pdf_link_of r]

/-- The cache entry stored for a record (src/main.py lines 102-110).  The
source stores the `pdf_link` variable directly; since the record is always
`cols_text ++ [pdf_link]`, that variable equals the record's last element. -/
def mkEntry (row0 : List String) : CacheEntry :=
  ⟨row0, row0.getLastD "", row0.getD 1 "", row0.getD 3 "", row0.getD 4 "", row0.getD 5 ""⟩

/-- Python dict update `data_cache[pub_id] = entry` on an association list:
replaces the binding of an existing key in place, appends a new key. -/
def cacheInsert : List (String × CacheEntry) → String → CacheEntry → List (String × CacheEntry)
  | [], k, v => [(k, v)]
  | p :: rest, k, v => if p.1 == k then (k, v) :: rest else p :: cacheInsert rest k v

/-- The row loop of `scrape_page` (src/main.py lines 81-110): rows with
fewer than six cells are skipped (`continue`); each remaining row yields one
record, appended to `data`, and one cache store keyed by `cols_text[0]`. -/
def processRowsAux : List RawRow → List (String × CacheEntry) →
    List (List String) × List (String × CacheEntry)
  | [], cache => ([], cache)
  | r :: rest, cache =>
    if r.length < 6 then
      processRowsAux rest cache
    else
      let row0 := mkRowRecord r
      let out := processRowsAux rest (cacheInsert cache (row0.getD 0 "") (mkEntry row0))
      (row0 :: out.1, out.2)

/-- Records and cache produced from the rows of a page, starting from the
freshly reset cache (`data_cache = {}`, src/main.py line 56). -/
def processRows (rows : List RawRow) : List (List String) × List (String × CacheEntry) :=
  processRowsAux rows []

/-- The page structure `scrape_page` inspects: the table with
id `datatable_publicaciones` may be missing, its `tbody` may be missing, or
the `tbody` rows are present. -/
inductive PageContent where
  | noTable : PageContent
  | noTbody : PageContent
  | table : List RawRow → PageContent
deriving DecidableEq

/-- Outcome of the HTTP GET in `scrape_page`: a connection-level exception,
or a body whose parse yields a `PageContent`. -/
inductive FetchResult where
  | fetchError : FetchResult
  | page : PageContent → FetchResult
deriving DecidableEq

/-- Everything one call of `scrape_page` produces: the returned `data` list,
the rebuilt global `data_cache`, and the error-level log message emitted, if
any (for the fetch failure the real message also interpolates the caught
exception). -/
structure ScrapeOut where
  ret : List (List String)
  cache : List (String × CacheEntry)
  logged : Option String
deriving DecidableEq

/-- `scrape_page` (src/main.py lines 54-112).  The global `data_cache` is
reset to empty first (line 56); a fetch error or a missing table/tbody is
logged and yields the empty list. -/
def scrape_page (fr : FetchResult) : ScrapeOut :=
  match fr with
  | .fetchError => ⟨[], [], some "Error al obtener la página"⟩
  | .page .noTable => ⟨[], [], some "No se encontró la tabla de publicaciones."⟩
  | .page .noTbody => ⟨[], [], some "No se encontró el cuerpo de la tabla de publicaciones."⟩
  | .page (.table rows) =>
    let out := processRows rows
    ⟨out.1, out.2, none⟩

/-- `filter_vigente` (src/main.py lines 115-117):
`[row for row in data if "Vigente" in row[5]]`. -/
def filter_vigente (data : List (List String)) : List (List String) :=
  data.filter (fun row => strContains (row.getD 5 "") "Vigente")

/-- The `available_time` computation of `format_single_publication`
(src/main.py lines 123-133), at one-second granularity.  The dateparser
result for `row[4]` is passed in as an optional absolute time in seconds
(`none` models a failed parse) together with `datetime.now()`; `delta.days`
and `delta.seconds` of a non-negative `timedelta` are its total seconds
divided by and reduced modulo 86400. -/
def format_available_time (expires : Option Int) (now : Int) : String :=
  match expires with
  | none => "Desconocido"
  | some e =>
    let total : Int := e - now
    let clamped : Int := if total < 0 then 0 else total
    let t : Nat := clamped.toNat
    let days := t / 86400
    let secs := t % 86400
    let hours := secs / 3600
    let remainder := secs % 3600
    let minutes := remainder / 60
    toString days ++ " días, " ++ toString hours ++ " horas, " ++ toString minutes ++ " minutos"

/-- Stated from the spec's words, for comparison with
`format_available_time`: remaining time is `max(0, expires_at − now)`
decomposed into days, hours and minutes. -/
def spec_remaining_time (e now : Int) : String :=
  let t : Nat := (max 0 (e - now)).toNat
  toString (t / 86400) ++ " días, " ++ toString (t % 86400 / 3600) ++ " horas, " ++
    toString (t % 3600 / 60) ++ " minutos"

/-- Result of `urllib.parse.urlparse`, modelled for absolute URLs without
fragments, params or userinfo (the shapes `convert_drive_url` handles):
without a `"://"` the netloc is empty and everything up to `?` is the path,
as for Python's relative references. -/
structure ParsedUrl where
  scheme : String
  netloc : String
  path : String
  query : String
deriving DecidableEq

/-- Models `urllib.parse.urlparse` (see `ParsedUrl`). -/
def urlparse (u : String) : ParsedUrl :=
  match pySplit u "://" with
  | [] => ⟨"", "", "", ""⟩
  | [only] =>
    let pathChars := only.data.takeWhile (fun c => c != '?')
    let queryChars := (only.data.dropWhile (fun c => c != '?')).drop 1
    ⟨"", "", String.mk pathChars, String.mk queryChars⟩
  | s :: restParts =>
    let rest := String.intercalate "://" restParts
    let netloc := String.mk (rest.data.takeWhile (fun c => c != '/'))
    let after := rest.data.dropWhile (fun c => c != '/')
    ⟨s, netloc, String.mk (after.takeWhile (fun c => c != '?')),
      String.mk ((after.dropWhile (fun c => c != '?')).drop 1)⟩

/-- `parse_qs(query).get(key, [None])[0]` as used in `convert_drive_url`
(src/main.py lines 318-319): the first value bound to `key`, where fields
without `=` or with an empty value are dropped (`parse_qs` defaults), and a
field is split at its first `=`.  Percent-decoding is not modelled; the
source's drive links carry plain file ids. -/
def parse_qs_get_first (query key : String) : Option String :=
  let pairs := (pySplit query "&").filterMap (fun field =>
    match pySplit field "=" with
    | k :: v :: vs =>
      let value := String.intercalate "=" (v :: vs)
      if value = "" then none else some (k, value)
    | _ => none)
  (pairs.find? (fun p => p.1 == key)).map Prod.snd

/-- `convert_drive_url` (src/main.py lines 310-326).  The Python truthiness
test `if file_id:` is the match on the optional value plus the emptiness
test; `parsed_url.path.split('/')[3]` cannot raise because a path containing
`"/file/d/"` splits into at least four parts. -/
def convert_drive_url (u : String) : String :=
  let p := urlparse u
  if strContains p.netloc "drive.google.com" then
    let file_id : Option String :=
      if strContains p.path "/file/d/" then
        some ((pySplit p.path "/").getD 3 "")
      else if strContains p.path "/open" then
        parse_qs_get_first p.query "id"
      else
        none
    match file_id with
    | some fid =>
      if fid = "" then u else "https://drive.google.com/uc?export=download&id=" ++ fid
    | none => u
  else
    u

/-- The diff step of `check_for_new_publications` (src/main.py lines
338-341): the new ids, and the next value of `previous_publications`, which
is replaced by the whole current set when the difference is non-empty and
kept otherwise. -/
def detect_new (prev active : Finset String) : Finset String × Finset String :=
  let nw := active \ prev
  (nw, if nw = ∅ then prev else active)

/-- `subscribe` (src/main.py lines 199-203): `subscribers.add(user_id)`. -/
def subscribe (s : Finset Int) (user_id : Int) : Finset Int :=
  insert user_id s

/-- `unsubscribe` (src/main.py lines 205-209): `subscribers.discard(user_id)`. -/
def unsubscribe (s : Finset Int) (user_id : Int) : Finset Int :=
  s.erase user_id

/-- The notification fan-out of `check_for_new_publications` (src/main.py
lines 342-360): for each new id, the record is looked up in the vigente
data (skipped if absent); for each subscriber a delivery is attempted, its
success given by the oracle `ok`, and a failure is caught by the
`try`/`except` (logged) so the loops continue.  The result records every
attempted `(publication, subscriber)` delivery with its outcome. -/
def notify_loop (vig : List (List String)) (newIds : List String) (subs : List Int)
    (ok : String → Int → Bool) : List (String × Int × Bool) :=
  newIds.flatMap (fun i =>
    match vig.find? (fun r => r.getD 0 "" == i) with
    | some _ => subs.map (fun u => (i, u, ok i u))
    | none => [])

/-- The process-wide mutable state of the cycle (src/main.py lines 49-51):
the id-keyed cache and the previously observed active-id set. -/
structure ProcState where
  data_cache : List (String × CacheEntry)
  previous_publications : Finset String
deriving DecidableEq

/-- The list of new ids iterated by the notification loop: the vigente ids
(first occurrences) not previously observed.  Python iterates the set
`new_publications` in arbitrary order; this picks the occurrence order as
representative. -/
def new_list (vig : List (List String)) (prev : Finset String) : List String :=
  ((vig.map (fun r => r.getD 0 "")).dedup).filter (fun i => decide (i ∉ prev))

/-- One scheduled cycle, `check_for_new_publications` (src/main.py lines
329-360): scrape (which resets and rebuilds the cache), filter the vigente
rows, diff the current active ids against `previous_publications`, and on a
non-empty difference replace `previous_publications` by the whole current
set and notify every subscriber of every new publication.  Returns the new
process state and the attempted deliveries. -/
def check_for_new_publications (fr : FetchResult) (ok : String → Int → Bool)
    (st : ProcState) (subs : List Int) : ProcState × List (String × Int × Bool) :=
  let s := scrape_page fr
  let vig := filter_vigente s.ret
  let current : Finset String := (vig.map (fun r => r.getD 0 "")).toFinset
  let nw := current \ st.previous_publications
  if nw = ∅ then
    (⟨s.cache, st.previous_publications⟩, [])
  else
    (⟨s.cache, current⟩, notify_loop vig (new_list vig st.previous_publications) subs ok)

/-- The current active-id set a cycle computes from a fetch outcome. -/
def current_ids (fr : FetchResult) : Finset String :=
  ((filter_vigente (scrape_page fr).ret).map (fun r => r.getD 0 "")).toFinset

/-- The well-formed-row records of a page, in row order: one record per row
with at least six cells. -/
def wfRecords (rows : List RawRow) : List (List String) :=
  (rows.filter (fun r => decide (6 ≤ r.length))).map mkRowRecord

/-- A concrete cache entry, used to exhibit cycle behaviour on a failed
fetch. -/
def entry7 : CacheEntry := mkEntry ["7", "d", "x", "p", "e", "Vigente", "No disponible"]

/-! ### Helper lemmas -/

theorem processRowsAux_fst (rows : List RawRow) (c : List (String × CacheEntry)) :
    (processRowsAux rows c).1 = wfRecords rows := by
  induction rows generalizing c with
  | nil => rfl
  | cons r rest ih =>
    by_cases h : r.length < 6
    · have h6 : ¬ 6 ≤ r.length := by omega
      simp [processRowsAux, wfRecords, List.filter_cons, h, h6, ih]
    · have h6 : 6 ≤ r.length := by omega
      simp [processRowsAux, wfRecords, List.filter_cons, h, h6, ih]

theorem lookup_cacheInsert (c : List (String × CacheEntry)) (k a : String) (v : CacheEntry) :
    List.lookup a (cacheInsert c k v) = if a = k then some v else List.lookup a c := by
  induction c with
  | nil =>
    by_cases h : a = k
    · simp [cacheInsert, List.lookup, h]
    · have hb : (a == k) = false := beq_eq_false_iff_ne.mpr h
      simp [cacheInsert, List.lookup, h, hb]
  | cons p rest ih =>
    by_cases hp : p.1 = k
    · have hpb : (p.1 == k) = true := beq_iff_eq.mpr hp
      by_cases h : a = k
      · have hab : (a == k) = true := beq_iff_eq.mpr h
        simp [cacheInsert, List.lookup, hpb, hab, h]
      · have hab : (a == k) = false := beq_eq_false_iff_ne.mpr h
        have hap : (a == p.1) = false := beq_eq_false_iff_ne.mpr (by rw [hp]; exact h)
        simp [cacheInsert, List.lookup, hpb, hab, hap, h]
    · have hpb : (p.1 == k) = false := beq_eq_false_iff_ne.mpr hp
      by_cases hap : a = p.1
      · have h : ¬ a = k := by rw [hap]; exact hp
        have hapb : (a == p.1) = true := beq_iff_eq.mpr hap
        simp [cacheInsert, List.lookup, hpb, hapb, h]
      · have hapb : (a == p.1) = false := beq_eq_false_iff_ne.mpr hap
        simp [cacheInsert, List.lookup, hpb, hapb, ih]

theorem keys_cacheInsert (c : List (String × CacheEntry)) (k a : String) (v : CacheEntry) :
    a ∈ (cacheInsert c k v).map Prod.fst ↔ a = k ∨ a ∈ c.map Prod.fst := by
  induction c with
  | nil => simp [cacheInsert]
  | cons p rest ih =>
    by_cases hp : p.1 = k
    · simp [cacheInsert, hp]
    · simp [cacheInsert, hp, ih]
      tauto

theorem processRowsAux_lookup (rows : List RawRow) (c : List (String × CacheEntry)) (k : String) :
    List.lookup k (processRowsAux rows c).2 =
      Option.or (((wfRecords rows).reverse.find? (fun r => r.getD 0 "" == k)).map mkEntry)
        (List.lookup k c) := by
  induction rows generalizing c with
  | nil => simp [processRowsAux, wfRecords]
  | cons r rest ih =>
    by_cases h : r.length < 6
    · have h6 : ¬ 6 ≤ r.length := by omega
      have hrec : wfRecords (r :: rest) = wfRecords rest := by
        simp [wfRecords, List.filter_cons, h6]
      have hstep : (processRowsAux (r :: rest) c).2 = (processRowsAux rest c).2 := by
        simp [processRowsAux, h]
      rw [hstep, hrec, ih]
    · have h6 : 6 ≤ r.length := by omega
      have hrec : wfRecords (r :: rest) = mkRowRecord r :: wfRecords rest := by
        simp [wfRecords, List.filter_cons, h6]
      have hstep : (processRowsAux (r :: rest) c).2 =
          (processRowsAux rest
            (cacheInsert c ((mkRowRecord r).getD 0 "") (mkEntry (mkRowRecord r)))).2 := by
        simp [processRowsAux, h]
      rw [hstep, hrec, ih, lookup_cacheInsert, List.reverse_cons, List.find?_append]
      cases hf : (wfRecords rest).reverse.find? (fun r' => r'.getD 0 "" == k) with
      | some x => simp [Option.or]
      | none =>
        by_cases hk : (mkRowRecord r).getD 0 "" = k
        · have hkb : ((mkRowRecord r).getD 0 "" == k) = true := beq_iff_eq.mpr hk
          have hsing : List.find? (fun r' => r'.getD 0 "" == k) [mkRowRecord r] =
              some (mkRowRecord r) := by simp only [List.find?, hkb]
          rw [hsing, if_pos hk.symm]
          rfl
        · have hkb : ((mkRowRecord r).getD 0 "" == k) = false := beq_eq_false_iff_ne.mpr hk
          have hk' : ¬ k = (mkRowRecord r).getD 0 "" := fun hkk => hk hkk.symm
          have hsing : List.find? (fun r' => r'.getD 0 "" == k) [mkRowRecord r] = none := by
            simp only [List.find?, hkb]
          rw [hsing, if_neg hk']
          rfl

theorem processRowsAux_keys (rows : List RawRow) (c : List (String × CacheEntry)) (k : String) :
    k ∈ (processRowsAux rows c).2.map Prod.fst ↔
      k ∈ (wfRecords rows).map (fun r => r.getD 0 "") ∨ k ∈ c.map Prod.fst := by
  induction rows generalizing c with
  | nil => simp [processRowsAux, wfRecords]
  | cons r rest ih =>
    by_cases h : r.length < 6
    · have h6 : ¬ 6 ≤ r.length := by omega
      have hrec : wfRecords (r :: rest) = wfRecords rest := by
        simp [wfRecords, List.filter_cons, h6]
      have hstep : (processRowsAux (r :: rest) c).2 = (processRowsAux rest c).2 := by
        simp [processRowsAux, h]
      rw [hstep, hrec, ih]
    · have h6 : 6 ≤ r.length := by omega
      have hrec : wfRecords (r :: rest) = mkRowRecord r :: wfRecords rest := by
        simp [wfRecords, List.filter_cons, h6]
      have hstep : (processRowsAux (r :: rest) c).2 =
          (processRowsAux rest
            (cacheInsert c ((mkRowRecord r).getD 0 "") (mkEntry (mkRowRecord r)))).2 := by
        simp [processRowsAux, h]
      rw [hstep, hrec, ih, keys_cacheInsert]
      simp only [List.map_cons, List.mem_cons]
      tauto

/-! ### Claims -/

/-- C1: the diff step of `check_for_new_publications` computes
`active_ids − PreviousActiveIdSet`; when the difference is non-empty the
previous set is replaced by the entire current active set, when it is empty
the previous set is unchanged; the cycle's post-state previous set is
exactly `detect_new`'s; and the concrete scenario holds: from `Previous =
{}`, `detect_new({A,B})` returns `{A,B}` and sets previous to `{A,B}`, the
subsequent `detect_new({A})` returns `{}` and keeps `{A,B}`, and the further
`detect_new({A,B})` returns `{}` (B is not re-flagged). -/
theorem C1_detect_new_diff :
    (∀ prev active : Finset String, (detect_new prev active).1 = active \ prev) ∧
    (∀ prev active : Finset String,
      (active \ prev).Nonempty → (detect_new prev active).2 = active) ∧
    (∀ prev active : Finset String,
      active \ prev = ∅ → (detect_new prev active).2 = prev) ∧
    (∀ (fr : FetchResult) (ok : String → Int → Bool) (st : ProcState) (subs : List Int),
      (check_for_new_publications fr ok st subs).1.previous_publications =
        (detect_new st.previous_publications (current_ids fr)).2) ∧
    (detect_new ∅ {"A", "B"}).1 = {"A", "B"} ∧
    (detect_new ∅ {"A", "B"}).2 = {"A", "B"} ∧
    (detect_new (detect_new ∅ {"A", "B"}).2 {"A"}).1 = ∅ ∧
    (detect_new (detect_new ∅ {"A", "B"}).2 {"A"}).2 = {"A", "B"} ∧
    (detect_new (detect_new (detect_new ∅ {"A", "B"}).2 {"A"}).2 {"A", "B"}).1 = ∅ := by
  refine ⟨fun prev active => rfl, fun prev active h => ?_, fun prev active h => ?_,
    fun fr ok st subs => ?_, by decide, by decide, by decide, by decide, by decide⟩
  · simp [detect_new, Finset.nonempty_iff_ne_empty.mp h]
  · simp [detect_new, h]
  · simp only [check_for_new_publications, detect_new, current_ids]
    by_cases h : ((filter_vigente (scrape_page fr).ret).map
        (fun r => r.getD 0 "")).toFinset \ st.previous_publications = ∅
    · rw [if_pos h, if_pos h]
    · rw [if_neg h, if_neg h]

/-- C1 witness: the conditional-update implications of `C1_detect_new_diff`
instantiated at concrete sets. -/
theorem C1_detect_new_diff_witness :
    (detect_new {"A"} {"A", "B"}).2 = {"A", "B"} ∧
    (detect_new {"A", "B"} {"A"}).2 = {"A", "B"} :=
  ⟨C1_detect_new_diff.2.1 {"A"} {"A", "B"} (by decide),
   C1_detect_new_diff.2.2.1 {"A", "B"} {"A"} (by decide)⟩

/-- C2 counterexample: a cycle that fails at the fetch stage does not leave
the process state as it was: starting from a non-empty cache, the cache
after the failed cycle is empty (reset at the start of `scrape_page`), so
the post-state differs from the pre-state. -/
theorem C2_counterexample_cache_cleared :
    (check_for_new_publications FetchResult.fetchError (fun _ _ => true)
        ⟨[("7", entry7)], {"7"}⟩ [1]).1 ≠ (⟨[("7", entry7)], {"7"}⟩ : ProcState) := by
  decide

/-- C2 amended: a cycle failing at fetch (or at extraction: missing table or
missing tbody) leaves `previous_publications` unchanged and sends no
notifications, but it does not preserve the Index: `data_cache` is reset to
empty at the start of every scrape, so after a failed cycle the cache is
empty rather than its pre-cycle contents. -/
theorem C2_failed_cycle_state (fr : FetchResult)
    (hfr : fr = FetchResult.fetchError ∨ fr = FetchResult.page PageContent.noTable ∨
      fr = FetchResult.page PageContent.noTbody)
    (ok : String → Int → Bool) (st : ProcState) (subs : List Int) :
    check_for_new_publications fr ok st subs =
      (⟨[], st.previous_publications⟩, []) := by
  rcases hfr with h | h | h <;> subst h <;>
    simp [check_for_new_publications, scrape_page, filter_vigente, Finset.empty_sdiff]

/-- C2 witness: `C2_failed_cycle_state` at a concrete failed cycle. -/
theorem C2_failed_cycle_state_witness :
    check_for_new_publications FetchResult.fetchError (fun _ _ => true)
        ⟨[("7", entry7)], {"7"}⟩ [1] = (⟨[], {"7"}⟩, []) :=
  C2_failed_cycle_state FetchResult.fetchError (Or.inl rfl) (fun _ _ => true)
    ⟨[("7", entry7)], {"7"}⟩ [1]

/-- C3: `filter_vigente` is a pure filter (a Lean function, so the input
list is never mutated): its output is a subsequence of its input in input
order, and a record is kept exactly when its status field (`row[5]`)
contains the token `"Vigente"` as a case-sensitive substring. -/
theorem C3_filter_vigente_pure_filter (data : List (List String)) :
    List.Sublist (filter_vigente data) data ∧
    ∀ r, r ∈ filter_vigente data ↔
      r ∈ data ∧ strContains (r.getD 5 "") "Vigente" = true := by
  constructor
  · exact List.filter_sublist data
  · intro r
    simp [filter_vigente, List.mem_filter]

/-- C4: extraction returns exactly one record per row having at least six
cells, in row order — the records are precisely the well-formed rows mapped
through `mkRowRecord` — so rows with fewer than six cells are silently
omitted and do not affect the records of the well-formed rows. -/
theorem C4_one_record_per_wellformed_row (rows : List RawRow) :
    (processRows rows).1 = (rows.filter (fun r => decide (6 ≤ r.length))).map mkRowRecord :=
  processRowsAux_fst rows []

/-- C5 counterexample: for the URL
`https://drive.google.com/x/file/d/ABC/view`, whose path contains the
segment `/file/d/ABC`, the code extracts the fourth `/`-separated path
component (`"d"`), not `ABC`, contradicting the claim's general rule. -/
theorem C5_counterexample_nested_segment :
    convert_drive_url "https://drive.google.com/x/file/d/ABC/view" =
      "https://drive.google.com/uc?export=download&id=d" ∧
    convert_drive_url "https://drive.google.com/x/file/d/ABC/view" ≠
      "https://drive.google.com/uc?export=download&id=ABC" := by
  decide

/-- C5 amended: the example rewrite holds
(`.../file/d/XYZ123/view` ↦ `.../uc?export=download&id=XYZ123`), and in
general: on a drive host, when the path splits as `/file/d/<id>/...` (the
file id being the fourth `/`-separated component) with a non-empty id the
direct-download URL with that id is returned; on a drive host whose path
contains `/open` (and not `/file/d/`) with a non-empty `id` query parameter
likewise; a URL whose host is not a drive host, or whose path has neither
shape, is returned unchanged. -/
theorem C5_convert_drive_url_rewrite :
    (∀ (u fid : String) (restSegs : List String),
      strContains (urlparse u).netloc "drive.google.com" = true →
      strContains (urlparse u).path "/file/d/" = true →
      pySplit (urlparse u).path "/" = "" :: "file" :: "d" :: fid :: restSegs →
      fid ≠ "" →
      convert_drive_url u = "https://drive.google.com/uc?export=download&id=" ++ fid) ∧
    (∀ u fid : String,
      strContains (urlparse u).netloc "drive.google.com" = true →
      strContains (urlparse u).path "/file/d/" = false →
      strContains (urlparse u).path "/open" = true →
      parse_qs_get_first (urlparse u).query "id" = some fid →
      fid ≠ "" →
      convert_drive_url u = "https://drive.google.com/uc?export=download&id=" ++ fid) ∧
    (∀ u : String, strContains (urlparse u).netloc "drive.google.com" = false →
      convert_drive_url u = u) ∧
    (∀ u : String,
      strContains (urlparse u).path "/file/d/" = false →
      strContains (urlparse u).path "/open" = false →
      convert_drive_url u = u) ∧
    convert_drive_url "https://drive.google.com/file/d/XYZ123/view" =
      "https://drive.google.com/uc?export=download&id=XYZ123" := by
  refine ⟨fun u fid restSegs h1 h2 h3 h4 => ?_, fun u fid h1 h2 h3 h4 h5 => ?_,
    fun u h1 => ?_, fun u h1 h2 => ?_, by decide⟩
  · simp [convert_drive_url, h1, h2, h3, h4]
  · simp [convert_drive_url, h1, h2, h3, h4, h5]
  · simp [convert_drive_url, h1]
  · by_cases hn : strContains (urlparse u).netloc "drive.google.com" = true <;>
      simp [convert_drive_url, hn, h1, h2]

/-- C5 witness: `C5_convert_drive_url_rewrite` applied at concrete URLs of
each shape. -/
theorem C5_convert_drive_url_rewrite_witness :
    convert_drive_url "https://drive.google.com/open?id=QQ7" =
      "https://drive.google.com/uc?export=download&id=QQ7" ∧
    convert_drive_url "https://example.com/file/d/ABC/view" =
      "https://example.com/file/d/ABC/view" ∧
    convert_drive_url "https://drive.google.com/file/d/ZZ9/view" =
      "https://drive.google.com/uc?export=download&id=ZZ9" :=
  ⟨C5_convert_drive_url_rewrite.2.1 "https://drive.google.com/open?id=QQ7" "QQ7"
      (by decide) (by decide) (by decide) (by decide) (by decide),
   C5_convert_drive_url_rewrite.2.2.1 "https://example.com/file/d/ABC/view" (by decide),
   C5_convert_drive_url_rewrite.1 "https://drive.google.com/file/d/ZZ9/view" "ZZ9" ["view"]
      (by decide) (by decide) (by decide) (by decide)⟩

/-- C6: the remaining-time component displayed by
`format_single_publication` equals `max(0, expires_at − now)` decomposed
into days, hours and minutes (`spec_remaining_time`); that decomposition is
exact (days·86400 + hours·3600 + minutes·60 + leftover seconds rebuild the
total, with hours < 24 and minutes < 60); an expiry 2 days 3 hours
10 minutes ahead prints `"2 días, 3 horas, 10 minutos"`, an expiry in the
past floors at `"0 días, 0 horas, 0 minutos"`; and a failed parse of
`expires_at` yields `"Desconocido"` (the function is total, so formatting
never fails). -/
theorem C6_remaining_time :
    (∀ now : Int, format_available_time none now = "Desconocido") ∧
    (∀ e now : Int, format_available_time (some e) now = spec_remaining_time e now) ∧
    (∀ t : Nat,
      t / 86400 * 86400 + t % 86400 / 3600 * 3600 + t % 3600 / 60 * 60 + t % 60 = t ∧
      t % 86400 / 3600 < 24 ∧ t % 3600 / 60 < 60) ∧
    format_available_time (some 184200) 0 = "2 días, 3 horas, 10 minutos" ∧
    format_available_time (some (-60)) 0 = "0 días, 0 horas, 0 minutos" := by
  refine ⟨fun now => rfl, fun e now => ?_, fun t => ⟨?_, ?_, ?_⟩, by decide, by decide⟩
  · have hmax : (if e - now < 0 then (0 : Int) else e - now) = max 0 (e - now) := by
      rcases lt_or_le (e - now) 0 with h | h
      · simp [h, max_eq_left h.le]
      · simp [not_lt.mpr h, max_eq_right h]
    simp only [format_available_time, spec_remaining_time, hmax,
      Nat.mod_mod_of_dvd _ (by norm_num : (3600 : Nat) ∣ 86400)]
  · omega
  · omega
  · omega

/-- C7: delivery fan-out is independent per subscriber and per new id:
every `(new id, subscriber)` pair is attempted whatever the delivery
outcomes elsewhere are; the set of attempted pairs does not depend on the
delivery-outcome oracle; and no delivery failure reaches the cycle's state
(the post-state of `check_for_new_publications` is the same under any
oracle). -/
theorem C7_notify_independent :
    (∀ (vig : List (List String)) (newIds : List String) (subs : List Int)
        (ok : String → Int → Bool) (i : String) (u : Int),
      i ∈ newIds → (vig.find? (fun r => r.getD 0 "" == i)).isSome = true → u ∈ subs →
      (i, u, ok i u) ∈ notify_loop vig newIds subs ok) ∧
    (∀ (vig : List (List String)) (newIds : List String) (subs : List Int)
        (ok1 ok2 : String → Int → Bool),
      (notify_loop vig newIds subs ok1).map (fun a => (a.1, a.2.1)) =
        (notify_loop vig newIds subs ok2).map (fun a => (a.1, a.2.1))) ∧
    (∀ (fr : FetchResult) (st : ProcState) (subs : List Int)
        (ok1 ok2 : String → Int → Bool),
      (check_for_new_publications fr ok1 st subs).1 =
        (check_for_new_publications fr ok2 st subs).1) := by
  refine ⟨fun vig newIds subs ok i u hi hf hu => ?_, fun vig newIds subs ok1 ok2 => ?_,
    fun fr st subs ok1 ok2 => ?_⟩
  · apply List.mem_flatMap.mpr
    refine ⟨i, hi, ?_⟩
    obtain ⟨x, hx⟩ := Option.isSome_iff_exists.mp hf
    rw [hx]
    exact List.mem_map_of_mem (fun u' => (i, u', ok i u')) hu
  · simp only [notify_loop, List.map_flatMap]
    congr 1
    funext i
    cases hfind : vig.find? (fun r => r.getD 0 "" == i) <;>
      simp [List.map_map, Function.comp]
  · simp only [check_for_new_publications]
    split <;> rfl

/-- C7 witness: `C7_notify_independent` at a concrete delivery that fails:
the attempt is still recorded. -/
theorem C7_notify_independent_witness :
    ("1", (42 : Int), false) ∈
      notify_loop [["1", "d", "x", "p", "e", "Vigente", "No disponible"]] ["1"] [42]
        (fun _ _ => false) :=
  C7_notify_independent.1 [["1", "d", "x", "p", "e", "Vigente", "No disponible"]] ["1"] [42]
    (fun _ _ => false) "1" 42 (by decide) (by decide) (by decide)

/-- C8: subscribe and unsubscribe are idempotent on the registry:
subscribing twice leaves exactly one membership (the registry is unchanged
by the second add, and the multiplicity of the member is 1), and
unsubscribing an absent recipient leaves the registry unchanged (and, being
a total function modelling `set.discard`, never raises). -/
theorem C8_subscribe_unsubscribe_idempotent :
    (∀ (s : Finset Int) (x : Int),
      subscribe (subscribe s x) x = subscribe s x ∧
      (subscribe (subscribe s x) x).val.count x = 1) ∧
    (∀ (s : Finset Int) (y : Int), y ∉ s → unsubscribe s y = s) := by
  refine ⟨fun s x => ⟨?_, ?_⟩, fun s y h => ?_⟩
  · simp only [subscribe]
    exact Finset.insert_idem x s
  · exact Multiset.count_eq_one_of_mem (subscribe (subscribe s x) x).nodup
      (Finset.mem_insert_self x _)
  · simp only [unsubscribe]
    exact Finset.erase_eq_of_not_mem h

/-- C8 witness: `C8_subscribe_unsubscribe_idempotent` at concrete
recipients. -/
theorem C8_subscribe_unsubscribe_idempotent_witness :
    subscribe (subscribe (∅ : Finset Int) 7) 7 = subscribe ∅ 7 ∧
    unsubscribe (∅ : Finset Int) 5 = ∅ :=
  ⟨(C8_subscribe_unsubscribe_idempotent.1 ∅ 7).1,
   C8_subscribe_unsubscribe_idempotent.2 ∅ 5 (by decide)⟩

/-- C9 counterexample: a missing table (or missing tbody) is not
distinguishable by the caller from an empty-but-well-formed table: the
returned list and the rebuilt cache are identical in the two cases (only
the log line differs, which the caller does not receive). -/
theorem C9_counterexample_same_to_caller :
    (scrape_page (FetchResult.page PageContent.noTable)).ret =
      (scrape_page (FetchResult.page (PageContent.table []))).ret ∧
    (scrape_page (FetchResult.page PageContent.noTable)).cache =
      (scrape_page (FetchResult.page (PageContent.table []))).cache ∧
    (scrape_page (FetchResult.page PageContent.noTbody)).ret =
      (scrape_page (FetchResult.page (PageContent.table []))).ret ∧
    (scrape_page (FetchResult.page PageContent.noTbody)).cache =
      (scrape_page (FetchResult.page (PageContent.table []))).cache := by
  decide

/-- C9 amended: when the table or its body is missing, `scrape_page` logs a
distinct error-level message (and logs nothing for an empty well-formed
table), but the caller receives the same empty list in all three cases; the
distinction is surfaced only in the log, not in the value returned to the
caller. -/
theorem C9_missing_table_logged_only :
    (scrape_page (FetchResult.page PageContent.noTable)).ret = [] ∧
    (scrape_page (FetchResult.page PageContent.noTbody)).ret = [] ∧
    (scrape_page (FetchResult.page (PageContent.table []))).ret = [] ∧
    (scrape_page (FetchResult.page PageContent.noTable)).logged =
      some "No se encontró la tabla de publicaciones." ∧
    (scrape_page (FetchResult.page PageContent.noTbody)).logged =
      some "No se encontró el cuerpo de la tabla de publicaciones." ∧
    (scrape_page (FetchResult.page (PageContent.table []))).logged = none ∧
    (scrape_page (FetchResult.page PageContent.noTable)).logged ≠
      (scrape_page (FetchResult.page PageContent.noTbody)).logged := by
  decide

/-- C10: after extraction the cache keys are exactly the ids of the
returned records, and the cache maps an id to the entry built from the
last well-formed row carrying it (the first match in the reversed record
list), so later duplicate rows silently overwrite earlier ones while the
returned sequence keeps one record per row. -/
theorem C10_cache_keys_and_last_wins (rows : List RawRow) (k : String) :
    (k ∈ (processRows rows).2.map Prod.fst ↔
      k ∈ (processRows rows).1.map (fun r => r.getD 0 "")) ∧
    List.lookup k (processRows rows).2 =
      ((processRows rows).1.reverse.find? (fun r => r.getD 0 "" == k)).map mkEntry := by
  have hfst : (processRows rows).1 = wfRecords rows := processRowsAux_fst rows []
  constructor
  · rw [hfst]
    simpa [processRows] using processRowsAux_keys rows [] k
  · rw [hfst]
    simpa [processRows, Option.or_none] using processRowsAux_lookup rows [] k

end Bot
